import Mathlib

/-!
# Shallow embedding of `pkg/provider/provider.go`

The end-to-end custom-metrics provider keeps one `int64` per metric identity
in a Go map, writes it from an HTTP PUT handler (`updateResource`) and serves
it through four read operations.  The definitions below follow the Go source
function by function.  Values of Go type `int64` are integers reduced with
`wrap64`; Go's `(T, error)` results are `Except`/pairs; a Go run-time panic is
the `panic` constructor of `Outcome`.  The REST mapper, the dynamic client
pool and the clock are collaborators outside the repository and are taken as
parameters.  `glog` calls change neither the provider nor any returned value
and are left out.
-/

namespace Provider

/-! ## int64 arithmetic -/

/-- Two's-complement reduction of an integer to the `int64` range. -/
def wrap64 (x : Int) : Int := (x + 2 ^ 63) % 2 ^ 64 - 2 ^ 63

/-- The integer is representable as an `int64`. -/
def fitsInt64 (x : Int) : Prop := -2 ^ 63 ≤ x ∧ x < 2 ^ 63

instance (x : Int) : Decidable (fitsInt64 x) := by
  unfold fitsInt64; exact inferInstance

/-- Go `a * b` on `int64` operands: the product wraps silently. -/
def mul64 (a b : Int) : Int := wrap64 (a * b)

/-- Go `a / b` on `int64` operands: a zero divisor is a run-time panic
(`none`), otherwise the quotient truncates toward zero. -/
def div64 (a b : Int) : Option Int :=
  if b = 0 then none else some (wrap64 (Int.tdiv a b))

/-! ## Errors and outcomes -/

/-- Go `error` values that occur in the provider. -/
inductive Error where
  /-- The value `fmt.Errorf(msg)`. -/
  | errorf (msg : String)
  /-- The value `apierr.NewInternalError(cause)`. -/
  | internalError (cause : Error)
  /-- A `*strconv.NumError`; `range` tells `ErrRange` from `ErrSyntax`. -/
  | numError (func : String) (num : String) (range : Bool)
  /-- An error handed back by the REST mapper, the client pool or the
  dynamic client. -/
  | upstream (detail : String)
  deriving DecidableEq, Repr

/-- Result of a Go call that returns `(T, error)` and may also panic. -/
inductive Outcome (α : Type) where
  | ok (a : α)
  | error (e : Error)
  | panic (msg : String)
  deriving DecidableEq, Repr

/-! ## `strconv.ParseInt(s, 10, 64)` -/

/-- The digit loop of `strconv.ParseUint` for base 10 and 64 bits: a byte
that is no decimal digit is a syntax error with value 0, and the first
prefix that exceeds `2^64 - 1` is a range error with value `2^64 - 1`. -/
def parseUintLoop : List Char → Nat → Nat × Option Bool
  | [], n => (n, none)
  | c :: cs, n =>
    if '0' ≤ c ∧ c ≤ '9' then
      if 2 ^ 64 ≤ n * 10 + (c.toNat - '0'.toNat) then (2 ^ 64 - 1, some true)
      else parseUintLoop cs (n * 10 + (c.toNat - '0'.toNat))
    else (0, some false)

/-- Go `strconv.ParseUint(s, 10, 64)`; the flag of the error is `true` for
`ErrRange` and `false` for `ErrSyntax`. -/
def ParseUint (s : List Char) : Nat × Option Bool :=
  match s with
  | [] => (0, some false)
  | _ => parseUintLoop s 0

/-- Go `strconv.ParseInt(s, 10, 64)`: an optional sign, then decimal digits.
A syntax error yields 0, a range error yields the nearest `int64` bound. -/
def ParseInt (s : String) : Int × Option Error :=
  match s.data with
  | [] => (0, some (Error.numError "ParseInt" s false))
  | c :: cs =>
    let neg : Bool := c = '-'
    let body : List Char := if c = '+' ∨ c = '-' then cs else c :: cs
    match ParseUint body with
    | (_, some false) => (0, some (Error.numError "ParseInt" s false))
    | (un, _) =>
      if ¬ neg ∧ 2 ^ 63 ≤ un then
        (2 ^ 63 - 1, some (Error.numError "ParseInt" s true))
      else if neg ∧ 2 ^ 63 < un then
        (-2 ^ 63, some (Error.numError "ParseInt" s true))
      else if neg then (-(un : Int), none) else ((un : Int), none)

/-! ## Kubernetes data types used by the provider -/

/-- Go `schema.GroupResource`. -/
structure GroupResource where
  Group : String
  Resource : String
  deriving DecidableEq, Repr

/-- Go `schema.GroupVersionResource`. -/
structure GroupVersionResource where
  Group : String
  Version : String
  Resource : String
  deriving DecidableEq, Repr

/-- Go `schema.GroupVersionKind`. -/
structure GroupVersionKind where
  Group : String
  Version : String
  Kind : String
  deriving DecidableEq, Repr

/-- Go `GroupResource.WithVersion`. -/
def GroupResource.WithVersion (gr : GroupResource) (version : String) :
    GroupVersionResource :=
  { Group := gr.Group, Version := version, Resource := gr.Resource }

/-- Go `GroupVersionResource.GroupResource`. -/
def GroupVersionResource.GroupResource (gvr : GroupVersionResource) :
    GroupResource :=
  { Group := gvr.Group, Resource := gvr.Resource }

/-- Go `provider.MetricInfo`, the key of the value map. -/
structure MetricInfo where
  GroupResource : GroupResource
  Metric : String
  Namespaced : Bool
  deriving DecidableEq, Repr

/-- The part of `apimeta.RESTMapper` the provider reaches. -/
structure RESTMapper where
  KindFor : GroupVersionResource → Except Error GroupVersionKind
  ResourceFor : GroupVersionResource → Except Error GroupVersionResource
  ResourceSingularizer : String → Except Error String

/-- Name and namespace of a listed object (`metav1.Object`). -/
structure ObjectMeta where
  Namespace : String
  Name : String
  deriving DecidableEq, Repr

/-- A `runtime.Object` as the dynamic client returns it: a list object with
its items, or a single object. -/
inductive RuntimeObject where
  | list (items : List ObjectMeta)
  | single (item : ObjectMeta)
  deriving DecidableEq, Repr

/-- Go `metav1.APIResource`, with the two fields the dynamic client reads. -/
structure APIResource where
  Name : String
  Namespaced : Bool
  deriving DecidableEq, Repr

/-- Go `metav1.ListOptions`. -/
structure ListOptions where
  LabelSelector : String
  deriving DecidableEq, Repr

/-- Go `labels.Selector`, known through its `String()` form. -/
structure Selector where
  String : String
  deriving DecidableEq, Repr

/-- Go `dynamic.ResourceInterface`, reduced to `List`. -/
structure ResourceInterface where
  List : ListOptions → Except Error RuntimeObject

/-- Go `dynamic.Interface`, reduced to `Resource`. -/
structure DynamicInterface where
  Resource : APIResource → String → ResourceInterface

/-- Go `dynamic.ClientPool`. -/
structure ClientPool where
  ClientForGroupVersionResource :
    GroupVersionResource → Except Error DynamicInterface

/-- Formats of `resource.Quantity`. -/
inductive QuantityFormat where
  | DecimalExponent
  | BinarySI
  | DecimalSI
  deriving DecidableEq, Repr

/-- Go `resource.Quantity` holding an `int64` amount at milli scale. -/
structure Quantity where
  milli : Int
  format : QuantityFormat
  deriving DecidableEq, Repr

/-- Go `resource.NewMilliQuantity`. -/
def NewMilliQuantity (value : Int) (format : QuantityFormat) : Quantity :=
  { milli := value, format := format }

/-- Go `custom_metrics.ObjectReference`. -/
structure ObjectReference where
  APIVersion : String
  Kind : String
  Name : String
  Namespace : String
  deriving DecidableEq, Repr

/-- Go `custom_metrics.MetricValue`; `Timestamp` is a clock reading. -/
structure MetricValue where
  DescribedObject : ObjectReference
  MetricName : String
  Timestamp : Nat
  Value : Quantity
  deriving DecidableEq, Repr

/-- Go `runtime.APIVersionInternal`. -/
def APIVersionInternal : String := "__internal"

/-- The request of go-restful, known through `PathParameter`; a parameter
that is absent reads as the empty string. -/
structure Request where
  PathParameter : String → String

/-! ## The provider -/

/-- Go `E2EProvider`; the Go map `values` is a finite partial function. -/
structure E2EProvider where
  client : ClientPool
  mapper : RESTMapper
  values : MetricInfo → Option Int

/-- Go `NewE2EProvider`: the value map starts empty. -/
def NewE2EProvider (client : ClientPool) (mapper : RESTMapper) : E2EProvider :=
  { client := client, mapper := mapper, values := fun _ => none }

/-- Modelled from the spec: `MetricInfo.Normalized` is a method of the
imported provider package and is not under src/.  Spec 4.1: it canonicalizes
group and resource through the mapper and reports a failure of the
resolution; metric name and namespaced flag are kept.  When the resource
lookup fails the identity comes back as it was given; when only the singular
form is missing it comes back with the canonical group and resource. -/
def MetricInfo.Normalized (i : MetricInfo) (mapper : RESTMapper) :
    MetricInfo × String × Option Error :=
  match mapper.ResourceFor (i.GroupResource.WithVersion "") with
  | .error err => (i, "", some err)
  | .ok normalizedGroupRes =>
    let i1 : MetricInfo := { i with GroupResource := normalizedGroupRes.GroupResource }
    match mapper.ResourceSingularizer i1.GroupResource.Resource with
    | .error err => (i1, "", some err)
    | .ok singularResource => (i1, singularResource, none)

/-- Go `E2EProvider.updateResource`.  Both errors are only logged, so the
assignment `p.values[info] = i` is reached on every path.  The response is
not touched by the handler. -/
def updateResource (p : E2EProvider) (request : Request) : E2EProvider :=
  let ns := request.PathParameter "namespace"
  let namespaced : Bool := if ns.length > 0 then true else false
  let resourceType := request.PathParameter "resourceType"
  let metricName := request.PathParameter "metric"
  let value := request.PathParameter "value"
  let groupResource : GroupResource := { Group := "", Resource := resourceType }
  let info : MetricInfo :=
    { GroupResource := groupResource, Metric := metricName, Namespaced := namespaced }
  let info := (info.Normalized p.mapper).1
  let i := (ParseInt value).1
  { p with values := Function.update p.values info i }

/-- Go `E2EProvider.valueFor`: a map read, which is the zero value for an
absent key; the error is always nil. -/
def valueFor (p : E2EProvider) (groupResource : GroupResource) (metricName : String)
    (namespaced : Bool) : Int × Option Error :=
  let info : MetricInfo :=
    { GroupResource := groupResource, Metric := metricName, Namespaced := namespaced }
  let value := (p.values info).getD 0
  (value, none)

/-- Go `E2EProvider.metricFor`; `now` is the reading of `time.Now()`. -/
def metricFor (p : E2EProvider) (now : Nat) (value : Int) (groupResource : GroupResource)
    (ns : String) (name : String) (metricName : String) : Except Error MetricValue :=
  match p.mapper.KindFor (groupResource.WithVersion "") with
  | .error err => .error err
  | .ok kind =>
    .ok
      { DescribedObject :=
          { APIVersion := groupResource.Group ++ "/" ++ APIVersionInternal
            Kind := kind.Kind
            Name := name
            Namespace := ns }
        MetricName := metricName
        Timestamp := now
        Value := NewMilliQuantity (mul64 value 100) QuantityFormat.DecimalSI }

/-- Go `apimeta.IsListType`. -/
def IsListType : RuntimeObject → Bool
  | .list _ => true
  | .single _ => false

/-- The item loop of `apimeta.EachListItem`: the callback runs on the items
in order and the first error ends the loop. -/
def eachItem {σ : Type} (fn : ObjectMeta → σ → Except Error σ) :
    List ObjectMeta → σ → Except Error σ
  | [], s => .ok s
  | item :: rest, s =>
    match fn item s with
    | .error err => .error err
    | .ok s1 => eachItem fn rest s1

/-- Go `apimeta.EachListItem`; the state `σ` holds what the callback
captures. -/
def EachListItem {σ : Type} (obj : RuntimeObject)
    (fn : ObjectMeta → σ → Except Error σ) (s : σ) : Except Error σ :=
  match obj with
  | .list items => eachItem fn items s
  | .single _ => .error (Error.errorf "not a list")

/-- The loop `for i := range res` of `metricsFor`, over the remaining
elements: each one gets the value `100*totalValue/int64(len(res))`, where
`len` is the length of the whole slice. -/
def setValues (totalValue : Int) (len : Nat) :
    List MetricValue → Outcome (List MetricValue)
  | [] => .ok []
  | mv :: rest =>
    match div64 (mul64 100 totalValue) (len : Int) with
    | none => .panic "runtime error: integer divide by zero"
    | some q =>
      match setValues totalValue len rest with
      | .ok rest1 =>
        .ok ({ mv with Value := NewMilliQuantity q QuantityFormat.DecimalSI } :: rest1)
      | .error err => .error err
      | .panic msg => .panic msg

/-- Go `E2EProvider.metricsFor`.  The callback appends one sample per item,
built with raw value 0; the k-th sample is stamped with `clock k`. -/
def metricsFor (p : E2EProvider) (clock : Nat → Nat) (totalValue : Int)
    (groupResource : GroupResource) (metricName : String) (list : RuntimeObject) :
    Outcome (List MetricValue) :=
  if ¬ IsListType list then
    .error (Error.errorf "returned object was not a list")
  else
    match EachListItem list
        (fun item (res : List MetricValue) =>
          match metricFor p (clock res.length) 0 groupResource item.Namespace item.Name
              metricName with
          | .error err => .error err
          | .ok value => .ok (res ++ [value]))
        [] with
    | .error err => .error err
    | .ok res => setValues totalValue res.length res

/-- Go `E2EProvider.GetRootScopedMetricByName`. -/
def GetRootScopedMetricByName (p : E2EProvider) (now : Nat) (groupResource : GroupResource)
    (name : String) (metricName : String) : Except Error MetricValue :=
  match valueFor p groupResource metricName false with
  | (_, some err) => .error err
  | (value, none) => metricFor p now value groupResource "" name metricName

/-- Go `E2EProvider.GetRootScopedMetricBySelector`. -/
def GetRootScopedMetricBySelector (p : E2EProvider) (clock : Nat → Nat)
    (groupResource : GroupResource) (selector : Selector) (metricName : String) :
    Outcome (List MetricValue) :=
  match p.client.ClientForGroupVersionResource (groupResource.WithVersion "") with
  | .error _ =>
    .error (Error.internalError (Error.errorf "unable to list matching resources"))
  | .ok client =>
    match valueFor p groupResource metricName false with
    | (_, some err) => .error err
    | (totalValue, none) =>
      let apiRes : APIResource := { Name := groupResource.Resource, Namespaced := false }
      match (client.Resource apiRes "").List { LabelSelector := selector.String } with
      | .error err => .error err
      | .ok matchingObjectsRaw =>
        metricsFor p clock totalValue groupResource metricName matchingObjectsRaw

/-- Go `E2EProvider.GetNamespacedMetricByName`. -/
def GetNamespacedMetricByName (p : E2EProvider) (now : Nat) (groupResource : GroupResource)
    (ns : String) (name : String) (metricName : String) : Except Error MetricValue :=
  match valueFor p groupResource metricName true with
  | (_, some err) => .error err
  | (value, none) => metricFor p now value groupResource ns name metricName

/-- Go `E2EProvider.GetNamespacedMetricBySelector`. -/
def GetNamespacedMetricBySelector (p : E2EProvider) (clock : Nat → Nat)
    (groupResource : GroupResource) (ns : String) (selector : Selector)
    (metricName : String) : Outcome (List MetricValue) :=
  match p.client.ClientForGroupVersionResource (groupResource.WithVersion "") with
  | .error _ =>
    .error (Error.internalError (Error.errorf "unable to list matching resources"))
  | .ok client =>
    match valueFor p groupResource metricName true with
    | (_, some err) => .error err
    | (totalValue, none) =>
      let apiRes : APIResource := { Name := groupResource.Resource, Namespaced := true }
      match (client.Resource apiRes ns).List { LabelSelector := selector.String } with
      | .error err => .error err
      | .ok matchingObjectsRaw =>
        metricsFor p clock totalValue groupResource metricName matchingObjectsRaw

/-! ## Concrete collaborators -/

/-- The request that the route
`PUT /metrics/{namespace}/{resourceType}/{name}/{metric}/{value}` delivers. -/
def putRequest (ns resourceType name metric value : String) : Request :=
  { PathParameter := fun key =>
      if key = "namespace" then ns
      else if key = "resourceType" then resourceType
      else if key = "name" then name
      else if key = "metric" then metric
      else if key = "value" then value
      else "" }

/-- A REST mapper of the core group that knows pods and namespaces and takes
the singular `pod` for `pods`, as the default REST mapper does. -/
def coreMapper : RESTMapper :=
  { KindFor := fun gvr =>
      if gvr.Resource = "pods" ∨ gvr.Resource = "pod" then
        .ok { Group := "", Version := "v1", Kind := "Pod" }
      else if gvr.Resource = "namespaces" then
        .ok { Group := "", Version := "v1", Kind := "Namespace" }
      else .error (Error.upstream "no matches for resource")
    ResourceFor := fun gvr =>
      if gvr.Resource = "pods" ∨ gvr.Resource = "pod" then
        .ok { Group := "", Version := "v1", Resource := "pods" }
      else if gvr.Resource = "namespaces" then
        .ok { Group := "", Version := "v1", Resource := "namespaces" }
      else .error (Error.upstream "no matches for resource")
    ResourceSingularizer := fun r =>
      if r = "pods" then .ok "pod"
      else if r = "namespaces" then .ok "namespace"
      else .error (Error.upstream "no singular form") }

/-- A client pool whose every list call answers with the given object. -/
def listingPool (answer : Except Error RuntimeObject) : ClientPool :=
  { ClientForGroupVersionResource := fun _ =>
      .ok { Resource := fun _ _ => { List := fun _ => answer } } }

/-- A dynamic client whose cluster-wide listing is empty while every
namespaced listing holds one object. -/
def rootEmptyClient : DynamicInterface :=
  { Resource := fun apiRes ns =>
      { List := fun _ =>
          if apiRes.Namespaced then .ok (.list [{ Namespace := ns, Name := "a" }])
          else .ok (.list []) } }

/-- A client pool that hands out `rootEmptyClient` for every resource. -/
def rootEmptyPool : ClientPool :=
  { ClientForGroupVersionResource := fun _ => .ok rootEmptyClient }

/-- A client pool that cannot construct a client. -/
def brokenPool : ClientPool :=
  { ClientForGroupVersionResource := fun _ =>
      .error (Error.upstream "no client for resource") }

/-- A clock that reads the number of the call. -/
def tickClock : Nat → Nat := fun k => k

/-! ## Auxiliary facts -/

theorem wrap64_of_fits (x : Int) (h : fitsInt64 x) : wrap64 x = x := by
  unfold fitsInt64 at h
  unfold wrap64
  omega

/-- The sample that `metricFor` builds once the kind is resolved. -/
def sampleOf (kind : GroupVersionKind) (now : Nat) (value : Int)
    (groupResource : GroupResource) (ns name metricName : String) : MetricValue :=
  { DescribedObject :=
      { APIVersion := groupResource.Group ++ "/" ++ APIVersionInternal
        Kind := kind.Kind
        Name := name
        Namespace := ns }
    MetricName := metricName
    Timestamp := now
    Value := NewMilliQuantity (mul64 value 100) QuantityFormat.DecimalSI }

theorem metricFor_of_kind (p : E2EProvider) (now : Nat) (value : Int)
    (groupResource : GroupResource) (ns name metricName : String)
    (kind : GroupVersionKind)
    (hk : p.mapper.KindFor (groupResource.WithVersion "") = .ok kind) :
    metricFor p now value groupResource ns name metricName
      = .ok (sampleOf kind now value groupResource ns name metricName) := by
  simp [metricFor, hk, sampleOf]

theorem metricFor_of_error (p : E2EProvider) (now : Nat) (value : Int)
    (groupResource : GroupResource) (ns name metricName : String) (err : Error)
    (hk : p.mapper.KindFor (groupResource.WithVersion "") = .error err) :
    metricFor p now value groupResource ns name metricName = .error err := by
  simp [metricFor, hk]

/-- The callback that `metricsFor` hands to `EachListItem`. -/
def appendSample (p : E2EProvider) (clock : Nat → Nat) (groupResource : GroupResource)
    (metricName : String) (item : ObjectMeta) (res : List MetricValue) :
    Except Error (List MetricValue) :=
  match metricFor p (clock res.length) 0 groupResource item.Namespace item.Name
      metricName with
  | .error err => .error err
  | .ok value => .ok (res ++ [value])

theorem eachItem_appendSample (p : E2EProvider) (clock : Nat → Nat)
    (groupResource : GroupResource) (metricName : String) (kind : GroupVersionKind)
    (hk : p.mapper.KindFor (groupResource.WithVersion "") = .ok kind)
    (items : List ObjectMeta) :
    ∀ acc : List MetricValue,
      ∃ res, eachItem (appendSample p clock groupResource metricName) items acc = .ok res
        ∧ res.length = acc.length + items.length := by
  induction items with
  | nil => intro acc; exact ⟨acc, rfl, by simp⟩
  | cons item rest ih =>
    intro acc
    obtain ⟨res, hres, hlen⟩ :=
      ih (acc ++ [sampleOf kind (clock acc.length) 0 groupResource item.Namespace
        item.Name metricName])
    refine ⟨res, ?_, ?_⟩
    · simp only [eachItem, appendSample, metricFor_of_kind _ _ _ _ _ _ _ kind hk]
      exact hres
    · rw [hlen]; simp; omega

theorem setValues_of_pos (totalValue : Int) (len : Nat) (hlen : 0 < len)
    (res : List MetricValue) :
    setValues totalValue len res
      = .ok (res.map (fun mv =>
          { mv with
            Value := NewMilliQuantity (wrap64 (Int.tdiv (mul64 100 totalValue) (len : Int)))
              QuantityFormat.DecimalSI })) := by
  have hne : ¬ ((len : Int) = 0) := by omega
  induction res with
  | nil => rfl
  | cons mv rest ih => simp [setValues, div64, hne, ih]

theorem tdiv_fits (a : Int) (n : Nat) (hn : 0 < n) (ha : fitsInt64 a) :
    fitsInt64 (Int.tdiv a (n : Int)) := by
  unfold fitsInt64 at *
  have hpos : (0 : Int) < (n : Int) := by exact_mod_cast hn
  rcases Int.le_total 0 a with h0 | h0
  · have h1 : 0 ≤ Int.tdiv a n := Int.tdiv_nonneg h0 (le_of_lt hpos)
    have h2 : Int.tdiv a n ≤ a := by
      rw [Int.tdiv_eq_ediv h0 (le_of_lt hpos)]
      exact Int.ediv_le_self _ h0
    omega
  · have hneg : 0 ≤ -a := by omega
    have e : Int.tdiv a n = -(Int.tdiv (-a) n) := by
      rw [Int.neg_tdiv]; simp
    have h1 : 0 ≤ Int.tdiv (-a) n := Int.tdiv_nonneg hneg (le_of_lt hpos)
    have h2 : Int.tdiv (-a) n ≤ -a := by
      rw [Int.tdiv_eq_ediv hneg (le_of_lt hpos)]
      exact Int.ediv_le_self _ hneg
    omega

/-- What `metricsFor` returns for a non-empty list whose kind resolves. -/
theorem metricsFor_of_kind (p : E2EProvider) (clock : Nat → Nat) (totalValue : Int)
    (groupResource : GroupResource) (metricName : String) (items : List ObjectMeta)
    (kind : GroupVersionKind) (hn : 0 < items.length)
    (hk : p.mapper.KindFor (groupResource.WithVersion "") = .ok kind)
    (hfit : fitsInt64 (100 * totalValue)) :
    ∃ res : List MetricValue, res.length = items.length ∧
      metricsFor p clock totalValue groupResource metricName (.list items)
        = .ok (res.map (fun mv =>
            { mv with
              Value := NewMilliQuantity (Int.tdiv (100 * totalValue) (items.length : Int))
                QuantityFormat.DecimalSI })) := by
  obtain ⟨res, hres, hlen⟩ :=
    eachItem_appendSample p clock groupResource metricName kind hk items []
  have hlen1 : res.length = items.length := by simpa using hlen
  refine ⟨res, hlen1, ?_⟩
  have hcb : (fun item (res : List MetricValue) =>
      match metricFor p (clock res.length) 0 groupResource item.Namespace item.Name
          metricName with
      | .error err => (Except.error err : Except Error (List MetricValue))
      | .ok value => .ok (res ++ [value]))
      = appendSample p clock groupResource metricName := by
    funext item res; rfl
  simp only [metricsFor, IsListType, EachListItem, hcb, hres]
  rw [hlen1, setValues_of_pos totalValue items.length hn res]
  simp only [mul64, wrap64_of_fits _ hfit,
    wrap64_of_fits _ (tdiv_fits _ _ hn hfit)]
  simp

/-- The identity under which `updateResource` stores the value of a request:
the normalized form of the identity read from the path parameters. -/
def storedKey (mapper : RESTMapper) (request : Request) : MetricInfo :=
  (MetricInfo.Normalized
    { GroupResource := { Group := "", Resource := request.PathParameter "resourceType" }
      Metric := request.PathParameter "metric"
      Namespaced := if (request.PathParameter "namespace").length > 0 then true else false }
    mapper).1

theorem updateResource_values (p : E2EProvider) (request : Request) :
    (updateResource p request).values
      = Function.update p.values (storedKey p.mapper request)
          (some (ParseInt (request.PathParameter "value")).1) := rfl

theorem updateResource_mapper (p : E2EProvider) (request : Request) :
    (updateResource p request).mapper = p.mapper := rfl

theorem updateResource_client (p : E2EProvider) (request : Request) :
    (updateResource p request).client = p.client := rfl

theorem valueFor_eq (p : E2EProvider) (groupResource : GroupResource)
    (metricName : String) (namespaced : Bool) :
    valueFor p groupResource metricName namespaced
      = ((p.values ⟨groupResource, metricName, namespaced⟩).getD 0, none) := rfl

theorem Normalized_Namespaced (i : MetricInfo) (mapper : RESTMapper) :
    (i.Normalized mapper).1.Namespaced = i.Namespaced := by
  unfold MetricInfo.Normalized
  cases mapper.ResourceFor (i.GroupResource.WithVersion "") with
  | error err => rfl
  | ok gvr =>
    simp only
    cases mapper.ResourceSingularizer gvr.GroupResource.Resource <;> rfl

theorem length_pos_of_ne_empty (s : String) (h : s ≠ "") : 0 < s.length := by
  cases s with
  | mk l =>
    cases l with
    | nil => exact absurd rfl h
    | cons c cs => simp [String.length]

theorem storedKey_Namespaced (mapper : RESTMapper) (request : Request) :
    (storedKey mapper request).Namespaced
      = if (request.PathParameter "namespace").length > 0 then true else false := by
  unfold storedKey
  rw [Normalized_Namespaced]

theorem updateResource_eq (p : E2EProvider) (request : Request) :
    updateResource p request
      = { client := p.client
          mapper := p.mapper
          values := Function.update p.values (storedKey p.mapper request)
            (some (ParseInt (request.PathParameter "value")).1) } := rfl

theorem foldl_updateResource_frame (mapper : RESTMapper) (key : MetricInfo)
    (requests : List Request) :
    ∀ p : E2EProvider, p.mapper = mapper →
      (∀ r ∈ requests, storedKey mapper r ≠ key) →
      (requests.foldl updateResource p).values key = p.values key
        ∧ (requests.foldl updateResource p).mapper = mapper := by
  induction requests with
  | nil => intro p hm _; exact ⟨rfl, hm⟩
  | cons r rest ih =>
    intro p hm hne
    have hr : storedKey mapper r ≠ key := hne r (List.mem_cons_self r rest)
    have hrest : ∀ q ∈ rest, storedKey mapper q ≠ key :=
      fun q hq => hne q (List.mem_cons_of_mem r hq)
    have hm1 : (updateResource p r).mapper = mapper := by
      rw [updateResource_mapper]; exact hm
    obtain ⟨hv, hmap⟩ := ih (updateResource p r) hm1 hrest
    refine ⟨?_, hmap⟩
    rw [List.foldl_cons, hv, updateResource_values, hm]
    exact Function.update_noteq (Ne.symm hr) _ _

/-- A provider that holds 7 for the root-scoped identity (pods, m). -/
def seededProvider : E2EProvider :=
  updateResource (NewE2EProvider brokenPool coreMapper) (putRequest "" "pods" "x" "m" "7")

/-! ## Selector aggregation (`metricsFor`) -/

/-- C1: for a total `T` with `100*T` inside the `int64` range and a list of
`n > 0` matching objects whose kind resolves, `metricsFor` returns exactly
`n` samples and each has milli-value `100*T / n`, the quotient truncated
toward zero. -/
theorem metricsFor_even_split (p : E2EProvider) (clock : Nat → Nat) (T : Int)
    (groupResource : GroupResource) (metricName : String) (items : List ObjectMeta)
    (kind : GroupVersionKind) (hn : 0 < items.length)
    (hk : p.mapper.KindFor (groupResource.WithVersion "") = .ok kind)
    (hfit : fitsInt64 (100 * T)) :
    ∃ samples : List MetricValue,
      metricsFor p clock T groupResource metricName (.list items) = .ok samples
        ∧ samples.length = items.length
        ∧ ∀ s ∈ samples, s.Value.milli = Int.tdiv (100 * T) (items.length : Int) := by
  obtain ⟨res, hlen, hres⟩ :=
    metricsFor_of_kind p clock T groupResource metricName items kind hn hk hfit
  refine ⟨_, hres, by simp [hlen], ?_⟩
  intro s hs
  obtain ⟨mv, _, rfl⟩ := List.mem_map.mp hs
  rfl

/-- C1 at total -7 over three pods: three samples, each -233 (not -234). -/
theorem metricsFor_even_split_witness :
    ∃ samples : List MetricValue,
      metricsFor (NewE2EProvider brokenPool coreMapper) tickClock (-7)
          { Group := "", Resource := "pods" } "packets-per-second"
          (.list [⟨"default", "a"⟩, ⟨"default", "b"⟩, ⟨"default", "c"⟩]) = .ok samples
        ∧ samples.length = 3
        ∧ ∀ s ∈ samples, s.Value.milli = -233 :=
  metricsFor_even_split (NewE2EProvider brokenPool coreMapper) tickClock (-7)
    { Group := "", Resource := "pods" } "packets-per-second"
    [⟨"default", "a"⟩, ⟨"default", "b"⟩, ⟨"default", "c"⟩]
    { Group := "", Version := "v1", Kind := "Pod" } (by decide) rfl (by decide)

/-- C2 as stated fails: on a well-formed list with zero items `metricsFor`
returns an empty sample list and a nil error, not an error. -/
theorem metricsFor_empty_is_not_an_error :
    metricsFor (NewE2EProvider brokenPool coreMapper) tickClock 5
        { Group := "", Resource := "pods" } "packets-per-second" (.list [])
      = .ok []
    ∧ ¬ ∃ err, metricsFor (NewE2EProvider brokenPool coreMapper) tickClock 5
        { Group := "", Resource := "pods" } "packets-per-second" (.list [])
      = .error err := by
  refine ⟨rfl, ?_⟩
  rintro ⟨err, h⟩
  have h0 : metricsFor (NewE2EProvider brokenPool coreMapper) tickClock 5
      { Group := "", Resource := "pods" } "packets-per-second" (.list []) = .ok [] := rfl
  rw [h0] at h
  cases h

/-- C2 amended: for every total and metric, on a well-formed list with zero
items `metricsFor` succeeds with the empty sample list and a nil error; hence
the root-scoped selector read succeeds with the empty list whenever its
listing answers with such a list, and so does the namespaced selector read
whenever its own listing does.  The division is not reached, so the outcome
is never a division-by-zero panic. -/
theorem metricsFor_empty (p : E2EProvider) (clock : Nat → Nat) (T : Int)
    (groupResource : GroupResource) (metricName : String) :
    metricsFor p clock T groupResource metricName (.list []) = .ok []
    ∧ (∀ (selector : Selector) (client : DynamicInterface),
        p.client.ClientForGroupVersionResource (groupResource.WithVersion "")
          = .ok client →
        (client.Resource { Name := groupResource.Resource, Namespaced := false } "").List
          { LabelSelector := selector.String } = .ok (.list []) →
        GetRootScopedMetricBySelector p clock groupResource selector metricName = .ok [])
    ∧ (∀ (ns : String) (selector : Selector) (client : DynamicInterface),
        p.client.ClientForGroupVersionResource (groupResource.WithVersion "")
          = .ok client →
        (client.Resource { Name := groupResource.Resource, Namespaced := true } ns).List
          { LabelSelector := selector.String } = .ok (.list []) →
        GetNamespacedMetricBySelector p clock groupResource ns selector metricName
          = .ok []) := by
  refine ⟨rfl, ?_, ?_⟩
  · intro selector client hclient hroot
    unfold GetRootScopedMetricBySelector
    rw [hclient]
    simp only [valueFor_eq, hroot]
    rfl
  · intro ns selector client hclient hnamespaced
    unfold GetNamespacedMetricBySelector
    rw [hclient]
    simp only [valueFor_eq, hnamespaced]
    rfl

/-- C2 amended, with a client whose cluster-wide listing matches no pod while
its namespaced listing matches one, and with a client whose listings match
none: the reads over an empty listing return the empty list, no error. -/
theorem metricsFor_empty_witness :
    metricsFor (NewE2EProvider rootEmptyPool coreMapper) tickClock 5
        { Group := "", Resource := "pods" } "packets-per-second" (.list []) = .ok []
    ∧ GetRootScopedMetricBySelector
        (NewE2EProvider rootEmptyPool coreMapper) tickClock
        { Group := "", Resource := "pods" } ⟨"app=web"⟩ "packets-per-second" = .ok []
    ∧ GetNamespacedMetricBySelector
        (NewE2EProvider (listingPool (.ok (.list []))) coreMapper) tickClock
        { Group := "", Resource := "pods" } "default" ⟨"app=web"⟩ "packets-per-second"
        = .ok [] :=
  ⟨(metricsFor_empty (NewE2EProvider rootEmptyPool coreMapper) tickClock 5
      { Group := "", Resource := "pods" } "packets-per-second").1,
    (metricsFor_empty (NewE2EProvider rootEmptyPool coreMapper) tickClock 5
      { Group := "", Resource := "pods" } "packets-per-second").2.1 ⟨"app=web"⟩
      rootEmptyClient rfl rfl,
    (metricsFor_empty (NewE2EProvider (listingPool (.ok (.list []))) coreMapper) tickClock 5
      { Group := "", Resource := "pods" } "packets-per-second").2.2 "default" ⟨"app=web"⟩
      { Resource := fun _ _ => { List := fun _ => .ok (.list []) } } rfl rfl⟩

/-- C6: for `n > 0` matching objects and a total `T` with `100*T` inside the
`int64` range, the milli-values of the samples of `metricsFor` add up to
`100*T - (100*T mod n)`, with the remainder of the truncating division. -/
theorem metricsFor_sum (p : E2EProvider) (clock : Nat → Nat) (T : Int)
    (groupResource : GroupResource) (metricName : String) (items : List ObjectMeta)
    (kind : GroupVersionKind) (hn : 0 < items.length)
    (hk : p.mapper.KindFor (groupResource.WithVersion "") = .ok kind)
    (hfit : fitsInt64 (100 * T)) :
    ∃ samples : List MetricValue,
      metricsFor p clock T groupResource metricName (.list items) = .ok samples
        ∧ (samples.map (fun s => s.Value.milli)).sum
            = 100 * T - Int.tmod (100 * T) (items.length : Int) := by
  obtain ⟨res, hlen, hres⟩ :=
    metricsFor_of_kind p clock T groupResource metricName items kind hn hk hfit
  refine ⟨_, hres, ?_⟩
  have hconst : ∀ l : List MetricValue,
      ((l.map (fun mv =>
        ({ mv with
          Value := NewMilliQuantity (Int.tdiv (100 * T) (items.length : Int))
            QuantityFormat.DecimalSI } : MetricValue))).map
          (fun s => s.Value.milli)).sum
        = (l.length : Int) * Int.tdiv (100 * T) (items.length : Int) := by
    intro l
    induction l with
    | nil => simp
    | cons a l ih =>
      simp only [List.map_cons, List.sum_cons, List.length_cons, ih]
      simp only [NewMilliQuantity]
      push_cast
      ring
  rw [hconst res, hlen]
  have h := Int.tmod_add_tdiv (100 * T) (items.length : Int)
  omega

/-- C6 at total 7 over three pods: 233 + 233 + 233 = 700 - 1. -/
theorem metricsFor_sum_witness :
    ∃ samples : List MetricValue,
      metricsFor (NewE2EProvider brokenPool coreMapper) tickClock 7
          { Group := "", Resource := "pods" } "packets-per-second"
          (.list [⟨"default", "a"⟩, ⟨"default", "b"⟩, ⟨"default", "c"⟩]) = .ok samples
        ∧ (samples.map (fun s => s.Value.milli)).sum = 700 - 1 :=
  metricsFor_sum (NewE2EProvider brokenPool coreMapper) tickClock 7
    { Group := "", Resource := "pods" } "packets-per-second"
    [⟨"default", "a"⟩, ⟨"default", "b"⟩, ⟨"default", "c"⟩]
    { Group := "", Version := "v1", Kind := "Pod" } (by decide) rfl (by decide)

/-! ## Reads by name -/

/-- C3 as stated fails: the write stores under the normalized identity, the
read looks up the identity it is given.  With a mapper that resolves `pod`
to `pods`, writing 5 for `pod` and reading `pod` by name gives 0, not 500,
although 5 parses, 500 fits and the kind of `pod` resolves. -/
theorem root_roundtrip_fails_under_normalization :
    ParseInt "5" = (5, none)
    ∧ coreMapper.KindFor ((⟨"", "pod"⟩ : GroupResource).WithVersion "")
        = .ok { Group := "", Version := "v1", Kind := "Pod" }
    ∧ ∃ s, GetRootScopedMetricByName
          (updateResource (NewE2EProvider brokenPool coreMapper)
            (putRequest "" "pod" "x" "m" "5"))
          0 { Group := "", Resource := "pod" } "x" "m" = .ok s
        ∧ s.Value.milli = 0 ∧ s.Value.milli ≠ 5 * 100 :=
  ⟨by decide, rfl, _, rfl, rfl, by decide⟩

/-- C3 amended: writing a value that parses to `v` through `updateResource`
with an empty namespace for resource type `r` and metric `m`, then calling
`GetRootScopedMetricByName` for `r` and `m`, returns a sample with
milli-value `v*100`, whenever `v*100` fits in `int64`, the kind of `r`
resolves and normalization leaves the identity (group "", `r`, `m`,
namespaced=false) unchanged. -/
theorem root_roundtrip (p : E2EProvider) (request : Request) (now : Nat) (name : String)
    (v : Int) (kind : GroupVersionKind)
    (hns : request.PathParameter "namespace" = "")
    (hparse : ParseInt (request.PathParameter "value") = (v, none))
    (hnorm : (MetricInfo.Normalized
        { GroupResource := { Group := "", Resource := request.PathParameter "resourceType" }
          Metric := request.PathParameter "metric"
          Namespaced := false } p.mapper).1
      = { GroupResource := { Group := "", Resource := request.PathParameter "resourceType" }
          Metric := request.PathParameter "metric"
          Namespaced := false })
    (hk : p.mapper.KindFor
        (({ Group := "", Resource := request.PathParameter "resourceType" } :
          GroupResource).WithVersion "") = .ok kind)
    (hfit : fitsInt64 (v * 100)) :
    ∃ s, GetRootScopedMetricByName (updateResource p request) now
          { Group := "", Resource := request.PathParameter "resourceType" } name
          (request.PathParameter "metric") = .ok s
      ∧ s.Value.milli = v * 100 := by
  have hkey : storedKey p.mapper request
      = { GroupResource := { Group := "", Resource := request.PathParameter "resourceType" }
          Metric := request.PathParameter "metric"
          Namespaced := false } := by
    unfold storedKey
    rw [hns]
    exact hnorm
  have hval : valueFor (updateResource p request)
      { Group := "", Resource := request.PathParameter "resourceType" }
      (request.PathParameter "metric") false = (v, none) := by
    rw [valueFor_eq, updateResource_values, hkey, hparse]
    simp
  refine ⟨sampleOf kind now v
      { Group := "", Resource := request.PathParameter "resourceType" } "" name
      (request.PathParameter "metric"), ?_, ?_⟩
  · unfold GetRootScopedMetricByName
    rw [hval]
    exact metricFor_of_kind _ _ _ _ _ _ _ kind hk
  · simp [sampleOf, NewMilliQuantity, mul64, wrap64_of_fits _ hfit]

/-- C3 amended, at `PUT /metrics//namespaces/x/queue-length/42`: the read by
name returns milli-value 4200. -/
theorem root_roundtrip_witness :
    ∃ s, GetRootScopedMetricByName
          (updateResource (NewE2EProvider brokenPool coreMapper)
            (putRequest "" "namespaces" "x" "queue-length" "42"))
          0 { Group := "", Resource := "namespaces" } "x" "queue-length" = .ok s
      ∧ s.Value.milli = 42 * 100 :=
  root_roundtrip (NewE2EProvider brokenPool coreMapper)
    (putRequest "" "namespaces" "x" "queue-length" "42") 0 "x" 42
    { Group := "", Version := "v1", Kind := "Namespace" } rfl (by decide) rfl rfl
    (by decide)

/-- C7: `GetNamespacedMetricByName` succeeds exactly when the kind of the
group/resource resolves, and then the sample carries the requested metric
name, namespace and object name, the resolved kind, and, when the product
fits in `int64`, milli-value 100 times the raw value held for the identity
(group/resource, metric, namespaced=true). -/
theorem GetNamespacedMetricByName_spec (p : E2EProvider) (now : Nat)
    (groupResource : GroupResource) (ns name metricName : String) :
    ((∃ s, GetNamespacedMetricByName p now groupResource ns name metricName = .ok s)
      ↔ ∃ kind, p.mapper.KindFor (groupResource.WithVersion "") = .ok kind)
    ∧ ∀ kind, p.mapper.KindFor (groupResource.WithVersion "") = .ok kind →
        ∃ s, GetNamespacedMetricByName p now groupResource ns name metricName = .ok s
          ∧ s.MetricName = metricName
          ∧ s.DescribedObject.Namespace = ns
          ∧ s.DescribedObject.Name = name
          ∧ s.DescribedObject.Kind = kind.Kind
          ∧ (fitsInt64 (100 * (p.values ⟨groupResource, metricName, true⟩).getD 0) →
              s.Value.milli = 100 * (p.values ⟨groupResource, metricName, true⟩).getD 0) := by
  have hget : GetNamespacedMetricByName p now groupResource ns name metricName
      = metricFor p now ((p.values ⟨groupResource, metricName, true⟩).getD 0)
          groupResource ns name metricName := rfl
  have hsucc : ∀ kind, p.mapper.KindFor (groupResource.WithVersion "") = .ok kind →
      ∃ s, GetNamespacedMetricByName p now groupResource ns name metricName = .ok s
        ∧ s.MetricName = metricName
        ∧ s.DescribedObject.Namespace = ns
        ∧ s.DescribedObject.Name = name
        ∧ s.DescribedObject.Kind = kind.Kind
        ∧ (fitsInt64 (100 * (p.values ⟨groupResource, metricName, true⟩).getD 0) →
            s.Value.milli = 100 * (p.values ⟨groupResource, metricName, true⟩).getD 0) := by
    intro kind hk
    refine ⟨sampleOf kind now ((p.values ⟨groupResource, metricName, true⟩).getD 0)
      groupResource ns name metricName, ?_, rfl, rfl, rfl, rfl, ?_⟩
    · rw [hget]; exact metricFor_of_kind _ _ _ _ _ _ _ kind hk
    · intro hfit
      have hfit1 : fitsInt64 ((p.values ⟨groupResource, metricName, true⟩).getD 0 * 100) := by
        rw [Int.mul_comm]; exact hfit
      simp only [sampleOf, NewMilliQuantity, mul64, wrap64_of_fits _ hfit1]
      rw [Int.mul_comm]
  refine ⟨⟨?_, ?_⟩, hsucc⟩
  · rintro ⟨s, hs⟩
    cases hk : p.mapper.KindFor (groupResource.WithVersion "") with
    | ok kind => exact ⟨kind, rfl⟩
    | error err =>
      rw [hget, metricFor_of_error _ _ _ _ _ _ _ err hk] at hs
      cases hs
  · rintro ⟨kind, hk⟩
    obtain ⟨s, hs, _⟩ := hsucc kind hk
    exact ⟨s, hs⟩

/-- C7 at the scenario of the spec: after
`PUT /metrics/default/pods/mypod/packets-per-second/42` the namespaced read
by name returns milli-value 4200, displayed 4.2. -/
theorem GetNamespacedMetricByName_spec_witness :
    ∃ s, GetNamespacedMetricByName
          (updateResource (NewE2EProvider brokenPool coreMapper)
            (putRequest "default" "pods" "mypod" "packets-per-second" "42"))
          0 { Group := "", Resource := "pods" } "default" "mypod" "packets-per-second"
          = .ok s
      ∧ s.MetricName = "packets-per-second"
      ∧ s.DescribedObject.Namespace = "default"
      ∧ s.DescribedObject.Name = "mypod"
      ∧ s.DescribedObject.Kind = "Pod"
      ∧ s.Value.milli = 4200 := by
  obtain ⟨s, h1, h2, h3, h4, h5, h6⟩ :=
    (GetNamespacedMetricByName_spec
      (updateResource (NewE2EProvider brokenPool coreMapper)
        (putRequest "default" "pods" "mypod" "packets-per-second" "42"))
      0 { Group := "", Resource := "pods" } "default" "mypod" "packets-per-second").2
      { Group := "", Version := "v1", Kind := "Pod" } rfl
  exact ⟨s, h1, h2, h3, h4, h5, h6 (by decide)⟩

/-- C8: an identity that no write has stored, on a provider that started
fresh, reads as 0 with a nil error through `valueFor`, whether or not its
kind resolves; and whenever the kind resolves, the read by name of its scope
returns a sample with milli-value 0 rather than an error.  With no writes at
all this is the freshly constructed provider. -/
theorem never_written_reads_zero (client : ClientPool) (mapper : RESTMapper)
    (requests : List Request) (groupResource : GroupResource) (metricName : String)
    (namespaced : Bool)
    (hnew : ∀ r ∈ requests, storedKey mapper r ≠ ⟨groupResource, metricName, namespaced⟩) :
    valueFor (requests.foldl updateResource (NewE2EProvider client mapper))
        groupResource metricName namespaced = (0, none)
    ∧ ∀ (kind : GroupVersionKind) (now : Nat) (ns name : String),
        mapper.KindFor (groupResource.WithVersion "") = .ok kind →
        ∃ s,
          (if namespaced then
            GetNamespacedMetricByName
              (requests.foldl updateResource (NewE2EProvider client mapper))
              now groupResource ns name metricName
          else
            GetRootScopedMetricByName
              (requests.foldl updateResource (NewE2EProvider client mapper))
              now groupResource name metricName) = .ok s
          ∧ s.Value.milli = 0 := by
  obtain ⟨hv, hm⟩ := foldl_updateResource_frame mapper
    ⟨groupResource, metricName, namespaced⟩ requests (NewE2EProvider client mapper) rfl hnew
  have h0 : ((requests.foldl updateResource (NewE2EProvider client mapper)).values
      ⟨groupResource, metricName, namespaced⟩).getD 0 = 0 := by
    rw [hv]; rfl
  have hval : valueFor (requests.foldl updateResource (NewE2EProvider client mapper))
      groupResource metricName namespaced = (0, none) := by
    rw [valueFor_eq, h0]
  refine ⟨hval, ?_⟩
  intro kind now ns name hk
  have hk1 : (requests.foldl updateResource (NewE2EProvider client mapper)).mapper.KindFor
      (groupResource.WithVersion "") = .ok kind := by
    rw [hm]; exact hk
  cases namespaced with
  | false =>
    refine ⟨sampleOf kind now 0 groupResource "" name metricName, ?_, rfl⟩
    simp only [Bool.false_eq_true, if_false]
    unfold GetRootScopedMetricByName
    rw [hval]
    exact metricFor_of_kind _ _ _ _ _ _ _ kind hk1
  | true =>
    refine ⟨sampleOf kind now 0 groupResource ns name metricName, ?_, rfl⟩
    simp only [if_true]
    unfold GetNamespacedMetricByName
    rw [hval]
    exact metricFor_of_kind _ _ _ _ _ _ _ kind hk1

/-- C8 twice: on the fresh provider the identity (widgets, m), whose kind
does not resolve, reads 0 through `valueFor`; and after one namespaced write
for (pods, m) the root-scoped identity (pods, m) was never written, reads 0
and is served with milli-value 0. -/
theorem never_written_reads_zero_witness :
    valueFor (NewE2EProvider brokenPool coreMapper)
        { Group := "", Resource := "widgets" } "m" false = (0, none)
    ∧ valueFor
        ([putRequest "default" "pods" "x" "m" "7"].foldl updateResource
          (NewE2EProvider brokenPool coreMapper))
        { Group := "", Resource := "pods" } "m" false = (0, none)
    ∧ ∃ s,
        GetRootScopedMetricByName
          ([putRequest "default" "pods" "x" "m" "7"].foldl updateResource
            (NewE2EProvider brokenPool coreMapper))
          0 { Group := "", Resource := "pods" } "x" "m" = .ok s
        ∧ s.Value.milli = 0 :=
  ⟨(never_written_reads_zero brokenPool coreMapper []
      { Group := "", Resource := "widgets" } "m" false (by decide)).1,
    (never_written_reads_zero brokenPool coreMapper [putRequest "default" "pods" "x" "m" "7"]
      { Group := "", Resource := "pods" } "m" false (by decide)).1,
    (never_written_reads_zero brokenPool coreMapper [putRequest "default" "pods" "x" "m" "7"]
      { Group := "", Resource := "pods" } "m" false (by decide)).2
      { Group := "", Version := "v1", Kind := "Pod" } 0 "" "x" rfl⟩

/-! ## Reads by selector -/

/-- C4, at a failing list call: with a client pool that constructs the
client but whose `List` fails with "connection refused", both selector reads
hand that error back as it is, not the generic internal error. -/
theorem selector_list_error_is_passed_through :
    GetRootScopedMetricBySelector
        (NewE2EProvider (listingPool (.error (Error.upstream "connection refused")))
          coreMapper)
        tickClock { Group := "", Resource := "pods" } ⟨"app=web"⟩ "packets-per-second"
      = .error (Error.upstream "connection refused")
    ∧ GetNamespacedMetricBySelector
        (NewE2EProvider (listingPool (.error (Error.upstream "connection refused")))
          coreMapper)
        tickClock { Group := "", Resource := "pods" } "default" ⟨"app=web"⟩
        "packets-per-second"
      = .error (Error.upstream "connection refused")
    ∧ Error.upstream "connection refused"
      ≠ Error.internalError (Error.errorf "unable to list matching resources") :=
  ⟨rfl, rfl, by decide⟩

/-! ## The write path -/

/-- C5, at two failing requests: a value that is no integer literal and a
resource the mapper cannot normalize are both written all the same.  The
literal `abc` replaces the stored 7 by 0, and the value 9 is stored for the
unresolved resource `widgets`. -/
theorem updateResource_writes_after_failed_validation :
    (ParseInt "abc").2 ≠ none
    ∧ valueFor seededProvider { Group := "", Resource := "pods" } "m" false = (7, none)
    ∧ valueFor (updateResource seededProvider (putRequest "" "pods" "x" "m" "abc"))
        { Group := "", Resource := "pods" } "m" false = (0, none)
    ∧ (MetricInfo.Normalized
        { GroupResource := { Group := "", Resource := "widgets" }
          Metric := "m"
          Namespaced := false } coreMapper).2.2 ≠ none
    ∧ valueFor seededProvider { Group := "", Resource := "widgets" } "m" false = (0, none)
    ∧ valueFor (updateResource seededProvider (putRequest "" "widgets" "x" "m" "9"))
        { Group := "", Resource := "widgets" } "m" false = (9, none) :=
  ⟨by decide, rfl, rfl, by decide, rfl, rfl⟩

/-- C9: the write is a last-writer-wins overwrite.  For two requests that
store under the same identity, whatever their path parameters and values,
writing the first and then the second leaves the provider as writing the
second alone does; the read of that identity then returns the second value;
and a request written twice leaves the provider as written once. -/
theorem updateResource_last_writer_wins (p : E2EProvider) (r1 r2 : Request)
    (hkey : storedKey p.mapper r1 = storedKey p.mapper r2) :
    updateResource (updateResource p r1) r2 = updateResource p r2
    ∧ valueFor (updateResource (updateResource p r1) r2)
        (storedKey p.mapper r2).GroupResource (storedKey p.mapper r2).Metric
        (storedKey p.mapper r2).Namespaced
      = ((ParseInt (r2.PathParameter "value")).1, none)
    ∧ updateResource (updateResource p r2) r2 = updateResource p r2 := by
  have h12 : updateResource (updateResource p r1) r2 = updateResource p r2 := by
    rw [updateResource_eq (updateResource p r1) r2, updateResource_mapper,
      updateResource_client, updateResource_values, hkey, Function.update_idem]
    rfl
  have h22 : updateResource (updateResource p r2) r2 = updateResource p r2 := by
    rw [updateResource_eq (updateResource p r2) r2, updateResource_mapper,
      updateResource_client, updateResource_values, Function.update_idem]
    rfl
  refine ⟨h12, ?_, h22⟩
  rw [h12, valueFor_eq, updateResource_values]
  simp

/-- C9 at two writes that reach the root-scoped (pods, m) through different
path parameters, 7 for `pod` and then 9 for `pods`: the read returns 9. -/
theorem updateResource_last_writer_wins_witness :
    updateResource (updateResource (NewE2EProvider brokenPool coreMapper)
        (putRequest "" "pod" "x" "m" "7")) (putRequest "" "pods" "y" "m" "9")
      = updateResource (NewE2EProvider brokenPool coreMapper)
          (putRequest "" "pods" "y" "m" "9")
    ∧ valueFor
        (updateResource (updateResource (NewE2EProvider brokenPool coreMapper)
          (putRequest "" "pod" "x" "m" "7")) (putRequest "" "pods" "y" "m" "9"))
        { Group := "", Resource := "pods" } "m" false
      = (9, none)
    ∧ updateResource (updateResource (NewE2EProvider brokenPool coreMapper)
        (putRequest "" "pods" "y" "m" "9")) (putRequest "" "pods" "y" "m" "9")
      = updateResource (NewE2EProvider brokenPool coreMapper)
          (putRequest "" "pods" "y" "m" "9") :=
  updateResource_last_writer_wins (NewE2EProvider brokenPool coreMapper)
    (putRequest "" "pod" "x" "m" "7") (putRequest "" "pods" "y" "m" "9") rfl

/-- C10: a write touches one key.  After `updateResource` has stored under
identity `I`, `valueFor` is unchanged at every identity that differs from
`I` in group, resource, metric name or namespaced flag; so a write with a
namespace leaves every root-scoped read unchanged, and a write without a
namespace leaves every namespaced read unchanged. -/
theorem updateResource_frame (p : E2EProvider) (request : Request) :
    (∀ (groupResource : GroupResource) (metricName : String) (namespaced : Bool),
        (groupResource.Group ≠ (storedKey p.mapper request).GroupResource.Group
          ∨ groupResource.Resource ≠ (storedKey p.mapper request).GroupResource.Resource
          ∨ metricName ≠ (storedKey p.mapper request).Metric
          ∨ namespaced ≠ (storedKey p.mapper request).Namespaced) →
        valueFor (updateResource p request) groupResource metricName namespaced
          = valueFor p groupResource metricName namespaced)
    ∧ (request.PathParameter "namespace" ≠ "" →
        ∀ (groupResource : GroupResource) (metricName : String),
          valueFor (updateResource p request) groupResource metricName false
            = valueFor p groupResource metricName false)
    ∧ (request.PathParameter "namespace" = "" →
        ∀ (groupResource : GroupResource) (metricName : String),
          valueFor (updateResource p request) groupResource metricName true
            = valueFor p groupResource metricName true) := by
  have hframe : ∀ (groupResource : GroupResource) (metricName : String) (namespaced : Bool),
      (⟨groupResource, metricName, namespaced⟩ : MetricInfo) ≠ storedKey p.mapper request →
      valueFor (updateResource p request) groupResource metricName namespaced
        = valueFor p groupResource metricName namespaced := by
    intro groupResource metricName namespaced hne
    rw [valueFor_eq, valueFor_eq, updateResource_values, Function.update_noteq hne]
  refine ⟨?_, ?_, ?_⟩
  · intro groupResource metricName namespaced hdiff
    apply hframe
    intro heq
    rw [← heq] at hdiff
    simp at hdiff
  · intro hns groupResource metricName
    apply hframe
    intro heq
    have h1 := storedKey_Namespaced p.mapper request
    rw [← heq] at h1
    simp [length_pos_of_ne_empty _ hns] at h1
  · intro hns groupResource metricName
    apply hframe
    intro heq
    have h1 := storedKey_Namespaced p.mapper request
    rw [← heq, hns] at h1
    simp at h1

/-- C10 at the namespaced write `PUT /metrics/default/pods/x/m/9` on a
provider that holds 7 for the root-scoped (pods, m): the root-scoped read
still returns 7. -/
theorem updateResource_frame_witness :
    valueFor (updateResource seededProvider (putRequest "default" "pods" "x" "m" "9"))
        { Group := "", Resource := "pods" } "m" false
      = valueFor seededProvider { Group := "", Resource := "pods" } "m" false
    ∧ valueFor (updateResource seededProvider (putRequest "default" "pods" "x" "m" "9"))
        { Group := "", Resource := "pods" } "m" false
      = valueFor seededProvider { Group := "", Resource := "pods" } "m" false
    ∧ valueFor (updateResource seededProvider (putRequest "" "pods" "x" "m" "9"))
        { Group := "", Resource := "pods" } "m" true
      = valueFor seededProvider { Group := "", Resource := "pods" } "m" true :=
  ⟨(updateResource_frame seededProvider (putRequest "default" "pods" "x" "m" "9")).1
      { Group := "", Resource := "pods" } "m" false (Or.inr (Or.inr (Or.inr (by decide)))),
    (updateResource_frame seededProvider (putRequest "default" "pods" "x" "m" "9")).2.1
      (by decide) { Group := "", Resource := "pods" } "m",
    (updateResource_frame seededProvider (putRequest "" "pods" "x" "m" "9")).2.2
      rfl { Group := "", Resource := "pods" } "m"⟩

end Provider
